import Mathlib

/-!
Verification of the execution core of the code-runner service.

The definitions below are a shallow embedding of the Python-runner part of
the repository: the runtime singleton manager (getPyodide), the dependency
preflight resolver (loadDeps), the execution stream controller (runPy) and
the cancellable stream primitive (makeStream).  External effects (network
fetches, the pyodide interpreter, package installation) are modelled as
oracles supplied as parameters, and the event-loop interleavings of the
JavaScript runtime are modelled as explicit event traces over a state
machine whose atomic steps are the synchronous segments of the source.
-/

namespace CodeRunner

/-! ## Dependency preflight: the import-name to package-name mapping

Embeds src/src/tool/py.ts, loadDeps, lines 74-85 and 140-149: the built-in
alias table, the JS object spread that merges it with the caller-supplied
override table (override wins), the mapping step
`combinedMap[importName] || importName` (note the JS falsy fallback: an
empty-string mapping also falls back to the raw import name), the
deduplication via `new Set` (which preserves first-occurrence order) and the
filter dropping entries whose trimmed text is empty. -/

/-- The built-in alias table of loadDeps (defaultMappings in the source). -/
def defaultMappings : List (String × String) :=
  [("sklearn", "scikit-learn"),
   ("cv2", "opencv-python"),
   ("PIL", "Pillow"),
   ("bs4", "beautifulsoup4")]

/-- Lookup in an association-list map.  Caller maps are JS objects, whose
keys are unique, so first-match lookup coincides with JS property access. -/
def lookupMap (m : List (String × String)) (k : String) : Option String :=
  (m.find? (fun p => p.1 == k)).map Prod.snd

/-- The merged map `combinedMap = { ...defaultMappings, ...importToPackageMap }`:
an override entry shadows the built-in entry for the same key. -/
def combinedLookup (importToPackageMap : List (String × String)) (k : String) :
    Option String :=
  match lookupMap importToPackageMap k with
  | some v => some v
  | none => lookupMap defaultMappings k

/-- One mapping step: `combinedMap[importName] || importName`.  The JS `||`
falls back to the raw import name when the map has no entry for it, and also
when the mapped value is the empty string (falsy). -/
def mapImportName (importToPackageMap : List (String × String)) (name : String) :
    String :=
  match combinedLookup importToPackageMap name with
  | some v => if v = "" then name else v
  | none => name

/-- `imports.map(importName => combinedMap[importName] || importName)`. -/
def packagesToInstall (importToPackageMap : List (String × String))
    (imports : List String) : List String :=
  imports.map (mapImportName importToPackageMap)

/-- Order-preserving deduplication, as performed by `[...new Set(list)]`:
the first occurrence of each element is kept. -/
def dedupFirstAux (seen : List String) : List String → List String
  | [] => []
  | x :: xs =>
    if seen.contains x then dedupFirstAux seen xs
    else x :: dedupFirstAux (x :: seen) xs

/-- `[...new Set(list)]`. -/
def dedupFirst (l : List String) : List String := dedupFirstAux [] l

/-- Whitespace characters removed by the JS `trim()` (the ASCII ones). -/
def isSpaceChar (c : Char) : Bool :=
  c = ' ' || c = '\t' || c = '\n' || c = '\r'

/-- JS `pkg.trim()`: strip leading and trailing whitespace. -/
def jsTrim (s : String) : String :=
  ⟨((s.toList.dropWhile isSpaceChar).reverse.dropWhile isSpaceChar).reverse⟩

/-- The filter predicate `typeof pkg === "string" && pkg.trim().length > 0`
(every element is a string here, so only the trimmed-length test remains). -/
def isNonBlank (s : String) : Bool := (jsTrim s).length > 0

/-- The final installable package list of loadDeps (uniquePackages in the
source): map through the merged table, deduplicate, drop blank entries. -/
def uniquePackages (importToPackageMap : List (String × String))
    (imports : List String) : List String :=
  (dedupFirst (packagesToInstall importToPackageMap imports)).filter isNonBlank

/-! ## Dependency preflight: control flow of loadDeps

Embeds src/src/tool/py.ts, loadDeps, lines 87-190.  The external effects are
oracles: `analysis` is the result of `pyodide.runPython(analysisCode).toJs()`
(an `.error` value means that call threw at the JS level; the Python-level
inner try/except that degrades an analysis problem to an empty result is one
of the `.ok` cases), `pipLoad` is `await getPip()`, `batchInstall` is the
batched `pip.install(uniquePackages)` and `install` is the per-package
`pip.install(pkg)` of the fallback loop. -/

/-- Oracles for the effects performed by loadDeps. -/
structure PipEnv where
  analysis : Except String (List String)
  pipLoad : Except String Unit
  batchInstall : List String → Except String Unit
  install : String → Except String Unit

/-- Observable installation events of one loadDeps run. -/
inductive InstallEv
  | batchOk (pkgs : List String)
  | batchFail (pkgs : List String)
  | pkgOk (p : String)
  | pkgFail (p : String)
deriving DecidableEq, Repr

/-- Outcome of one loadDeps run.  `recovered` is the outer catch branch:
the error is logged and the call returns normally. -/
inductive DepsOutcome
  | noMissing
  | nothingToInstall
  | installed (evs : List InstallEv)
  | recovered (msg : String)
deriving DecidableEq, Repr

/-- The installation step of loadDeps (lines 159-182): try one batched
install; on batch failure fall back to installing one package at a time,
each in its own try/catch, continuing past individual failures. -/
def installAttempts (env : PipEnv) (pkgs : List String) : List InstallEv :=
  match env.batchInstall pkgs with
  | .ok _ => [.batchOk pkgs]
  | .error _ =>
    .batchFail pkgs ::
      pkgs.map (fun p =>
        match env.install p with
        | .ok _ => .pkgOk p
        | .error _ => .pkgFail p)

/-- The body of the outer `try` of loadDeps, with exceptions transparent:
run the import analysis, load pip, and if missing imports were found compute
the package list and attempt installation.  An `.error` result is an
exception that reaches the outer catch. -/
def loadDepsTry (env : PipEnv) (importToPackageMap : List (String × String)) :
    Except String DepsOutcome :=
  match env.analysis with
  | .error e => .error e
  | .ok imports =>
    match env.pipLoad with
    | .error e => .error e
    | .ok _ =>
      if imports.isEmpty then .ok .noMissing
      else
        let pkgs := uniquePackages importToPackageMap imports
        if pkgs.isEmpty then .ok .nothingToInstall
        else .ok (.installed (installAttempts env pkgs))

/-- loadDeps itself: the whole body is wrapped in a try/catch whose catch
branch only logs, so every failure is downgraded to a normal return. -/
def loadDeps (env : PipEnv) (importToPackageMap : List (String × String)) :
    DepsOutcome :=
  match loadDepsTry env importToPackageMap with
  | .ok r => r
  | .error e => .recovered e

/-! ## runPy dependency preflight

Embeds the py-runner service (the unnamed source file defining runPy),
line 62: `await loadDeps(code)`.  The second argument of loadDeps is
omitted, so the default empty override map is used.  The RPC layer
(mcpHandler in the mcp controller) accepts an importToPackageMap argument
and passes it to runPy inside its options object, but runPy reads only the
nodeFSMountPoint field of its options and never forwards any override map
to loadDeps. -/

/-- The options object runPy declares (RunPyOptions in the source). -/
structure RunPyOptions where
  nodeFSMountPoint : Option String
deriving DecidableEq, Repr

/-- The dependency preflight performed by runPy for a snippet, given the
import-to-package override map the RPC layer accepted for the request:
runPy calls `loadDeps(code)`, so the override map is dropped and loadDeps
runs with its default empty map. -/
def runPyDeps (env : PipEnv) (_importToPackageMap : List (String × String)) :
    DepsOutcome :=
  loadDeps env []

/-! ## Runtime singleton manager

Embeds src/src/tool/py.ts, getPyodide, lines 10-59.  JavaScript is
single-threaded, and in this function every statement from the entry test
up to (and including) assigning `pyodideInstance = Promise.race([...])` is
synchronous, so each call executes its entry segment atomically; awaits are
the only interleaving points.  The module state is the two variables
`pyodideInstance` (here: the id of the cached bootstrap promise) and
`initializationAttempted`, plus a counter of how many bootstraps (calls of
loadPyodide) have been started.  The continuation of the initiating caller
after its await (the try/catch around `await pyodideInstance`) is the
resolve step: on failure it nulls the instance and resets the attempted
flag before rethrowing. -/

/-- Outcome of a bootstrap promise. -/
inductive BOutcome
  | success
  | failure (msg : String)
deriving DecidableEq, Repr

/-- The module-level state of the singleton manager.  `nextId` counts the
bootstraps started so far and doubles as the id of the next one. -/
structure SingletonState where
  inst : Option Nat
  attempted : Bool
  nextId : Nat
deriving DecidableEq, Repr

/-- The state before any call. -/
def initSingleton : SingletonState :=
  { inst := none, attempted := false, nextId := 0 }

/-- What one call of getPyodide does from the callers point of view. -/
inductive CallResult
  | startedAwait (pid : Nat)
  | cachedAwait (pid : Nat)
  | thrownAlreadyFailed
deriving DecidableEq, Repr

/-- The synchronous entry segment of one getPyodide call:
if neither an instance is cached nor an attempt is marked, mark the attempt,
start a bootstrap and cache its promise, then await it; else if an instance
promise is cached, await that; else throw at once. -/
def callStep (s : SingletonState) : SingletonState × CallResult :=
  if s.inst.isNone && !s.attempted then
    ({ inst := some s.nextId, attempted := true, nextId := s.nextId + 1 },
     .startedAwait s.nextId)
  else
    match s.inst with
    | some p => (s, .cachedAwait p)
    | none => (s, .thrownAlreadyFailed)

/-- The continuation of the initiating caller once the in-flight bootstrap
promise settles: on success the cached promise stays; on failure the
instance is cleared and the attempted flag reset before the error is
rethrown. -/
def resolveStep (s : SingletonState) (o : BOutcome) : SingletonState :=
  match o with
  | .success => s
  | .failure _ => { inst := none, attempted := false, nextId := s.nextId }

/-- `k` consecutive calls, each running its entry segment before any
promise resolves (the concurrent-first-callers schedule). -/
def callsN (s : SingletonState) : Nat → SingletonState × List CallResult
  | 0 => (s, [])
  | n + 1 =>
    let p1 := callStep s
    let p2 := callsN p1.1 n
    (p2.1, p1.2 :: p2.2)

/-- The bootstrap outcome a caller with the given call result awaits and
observes, given the outcome assignment `f` of the started bootstraps
(`none` for a caller that threw without awaiting any promise). -/
def observe (f : Nat → BOutcome) : CallResult → Option BOutcome
  | .startedAwait p => some (f p)
  | .cachedAwait p => some (f p)
  | .thrownAlreadyFailed => none

/-- The hard initialization timeout of getPyodide, in milliseconds. -/
def initTimeoutMs : Nat := 60000

/-- The rejection message of the initialization timeout promise. -/
def initTimeoutMsg : String := "Pyodide initialization timeout (60 seconds)"

/-- `Promise.race([loadPyodide(...), timeoutPromise])`: if loadPyodide
settles strictly before the 60000 ms timer its outcome wins; if it settles
later, or never, the race rejects with the timeout error. -/
def raceOutcome (loadTime : Option Nat) (loadOut : BOutcome) : BOutcome :=
  match loadTime with
  | some t => if t < initTimeoutMs then loadOut else .failure initTimeoutMsg
  | none => .failure initTimeoutMsg

/-! ## Runtime bootstrap source fallback

Embeds the getPyodide variant of the unnamed tool source file that builds a
CDN list (lines 19-67): the candidate base URLs are the caller-configured
source (from the PYODIDE_PACKAGE_BASE_URL environment variable, with one
trailing slash normalised, skipped when unset or empty since the JS
truthiness test drops it) followed by three public mirrors, and a for loop
tries each in order, returning the first success and throwing an aggregate
error only after every candidate failed.  The network is the oracle
`attempt`. -/

/-- `customPackageBaseUrl.replace(/\/$/, "")`: drop one trailing slash. -/
def stripTrailingSlash (s : String) : String :=
  if s.toList.getLast? = some '/' then ⟨s.toList.dropLast⟩ else s

/-- First fallback mirror. -/
def fastlyUrl (ver : String) : String :=
  "https://fastly.jsdelivr.net/pyodide/v" ++ ver ++ "/full/"

/-- Second fallback mirror. -/
def cdnJsdelivrUrl (ver : String) : String :=
  "https://cdn.jsdelivr.net/pyodide/v" ++ ver ++ "/full/"

/-- Third fallback mirror. -/
def unpkgUrl (ver : String) : String :=
  "https://unpkg.com/pyodide@" ++ ver ++ "/"

/-- The candidate list `cdnUrls`: the configured source first when present
and non-empty (the JS ternary yields null for an empty string, and
`.filter(Boolean)` removes it), then the three mirrors in order. -/
def cdnUrls (customBase : Option String) (ver : String) : List String :=
  (match customBase with
   | some u => if u = "" then [] else [stripTrailingSlash u ++ "/"]
   | none => []) ++
  [fastlyUrl ver, cdnJsdelivrUrl ver, unpkgUrl ver]

/-- The for loop over the candidate URLs, threading `lastError`.  Returns
the list of URLs actually attempted together with the result: the first
success short-circuits; after the loop the aggregate error names the last
failure. -/
def tryCdnsAux {H : Type} (attempt : String → Except String H)
    (lastErr : Option String) : List String → List String × Except String H
  | [] =>
    ([], .error ("All Pyodide CDNs failed. Last error: "
        ++ lastErr.getD "Unknown error"))
  | u :: rest =>
    match attempt u with
    | .ok h => ([u], .ok h)
    | .error e =>
      let p := tryCdnsAux attempt (some e) rest
      (u :: p.1, p.2)

/-- The whole fallback loop of this getPyodide variant. -/
def tryCdns {H : Type} (attempt : String → Except String H)
    (urls : List String) : List String × Except String H :=
  tryCdnsAux attempt none urls

/-! ## Execution stream controller

Embeds runPy (the unnamed py-runner service file, lines 64-150) together
with makeStream (src/src/tool/py.ts, lines 199-232), for one execution.
Each constructor of `ExecEv` is one synchronous JavaScript task or
microtask of the source, executed atomically:

* `outData` / `errData`: the pyodide stdout / stderr batched handlers,
  which call `push` (enqueue, guarded by `streamClosed`); they can only
  fire while the corresponding sink is attached;
* `timerFire`: the EXEC_TIMEOUT setTimeout callback;
* `abortFire`: the abort event listener installed by makeStream;
* `deferredStep`: the queued microtask that either begins `runPythonAsync`
  or, seeing an aborted signal, returns without running the snippet;
* `execDone` / `execError`: the continuation after `runPythonAsync`
  settles (the remainder of the microtask body or its catch).

Stream creation itself (`initExec`) runs the `start` callback of the
ReadableStream: first `onStart` (arm the timer, attach both sinks, queue
the deferred microtask), then, if the signal is already aborted, error the
controller and run `onAbort` (mark the stream closed, set the interrupt
flag to 2, detach both sinks). -/

/-- Terminal event of the ReadableStream. -/
inductive TermEv
  | closed
  | errored (reason : String)
deriving DecidableEq, Repr

/-- The timeout notice chunk and the abort reason used by the source. -/
def timeoutNotice : String := "[err][py] timeout"

/-- Default abort reason of makeStream when the signal carries none. -/
def abortReason : String := "Operation aborted"

/-- State of one runPy execution and its stream. -/
structure ExecState where
  streamClosed : Bool
  stdoutAttached : Bool
  stderrAttached : Bool
  timerActive : Bool
  timerCleared : Bool
  timerFired : Bool
  interruptVal : Nat
  timeoutInterruptSets : Nat
  chunks : List String
  termEv : Option TermEv
  producerRan : Bool
  deferredRun : Bool
  snippetStarted : Bool
  execSettled : Bool
  hasSignal : Bool
  preAborted : Bool
  abortFired : Bool
deriving DecidableEq, Repr

/-- Stream creation: makeStream runs `onStart` first (timer armed, sinks
attached, microtask queued) and only then checks `abortSignal.aborted`,
erroring the stream and running `onAbort` when it is already set. -/
def initExec (hasSignal preAborted : Bool) : ExecState :=
  let s0 : ExecState :=
    { streamClosed := false, stdoutAttached := true, stderrAttached := true,
      timerActive := true, timerCleared := false, timerFired := false,
      interruptVal := 0, timeoutInterruptSets := 0, chunks := [],
      termEv := none, producerRan := true, deferredRun := false,
      snippetStarted := false, execSettled := false,
      hasSignal := hasSignal, preAborted := hasSignal && preAborted,
      abortFired := false }
  if hasSignal && preAborted then
    { s0 with termEv := some (.errored abortReason),
              streamClosed := true, interruptVal := 2,
              stdoutAttached := false, stderrAttached := false,
              abortFired := true }
  else s0

/-- Events delivered to one execution after creation. -/
inductive ExecEv
  | outData (d : String)
  | errData (d : String)
  | timerFire
  | abortFire
  | deferredStep
  | execDone
  | execError (msg : String)
deriving DecidableEq, Repr

/-- `push`: enqueue a chunk unless the stream was marked closed. -/
def pushChunk (s : ExecState) (text : String) : ExecState :=
  if s.streamClosed then s else { s with chunks := s.chunks ++ [text] }

/-- One atomic step of the execution, per event. -/
def stepExec (s : ExecState) : ExecEv → ExecState
  | .outData d =>
    if s.stdoutAttached then pushChunk s d else s
  | .errData d =>
    if s.stderrAttached then pushChunk s ("[stderr] " ++ d) else s
  | .timerFire =>
    if s.timerActive then
      let s1 := { s with timerActive := false, timerFired := true }
      let s2 :=
        if s1.streamClosed then s1
        else
          { s1 with chunks := s1.chunks ++ [timeoutNotice],
                    termEv := some .closed, streamClosed := true,
                    stdoutAttached := false, stderrAttached := false }
      { s2 with interruptVal := 3,
                timeoutInterruptSets := s2.timeoutInterruptSets + 1 }
    else s
  | .abortFire =>
    if s.hasSignal && !s.preAborted && !s.abortFired then
      let s1 := { s with abortFired := true }
      let s2 :=
        match s1.termEv with
        | none => { s1 with termEv := some (.errored abortReason) }
        | some _ => s1
      { s2 with streamClosed := true, interruptVal := 2,
                stdoutAttached := false, stderrAttached := false }
    else s
  | .deferredStep =>
    if s.deferredRun then s
    else
      let s1 := { s with deferredRun := true }
      if s1.hasSignal && (s1.preAborted || s1.abortFired) then s1
      else { s1 with snippetStarted := true }
  | .execDone =>
    if s.snippetStarted && !s.execSettled then
      let s1 := { s with execSettled := true, timerActive := false,
                         timerCleared := true }
      if s1.streamClosed then s1
      else
        { s1 with termEv := some .closed, streamClosed := true,
                  stdoutAttached := false, stderrAttached := false }
    else s
  | .execError m =>
    if s.snippetStarted && !s.execSettled then
      let s1 := { s with execSettled := true, timerActive := false,
                         timerCleared := true }
      if s1.streamClosed then s1
      else
        { s1 with termEv := some (.errored m), streamClosed := true,
                  stdoutAttached := false, stderrAttached := false }
    else s

/-- Run a trace of events. -/
def runExec (s : ExecState) (evs : List ExecEv) : ExecState :=
  evs.foldl stepExec s

/-- Once a terminal event is recorded, the stream is marked closed and both
sinks are detached. -/
def terminalSettled (s : ExecState) : Prop :=
  s.termEv.isSome →
    s.streamClosed = true ∧ s.stdoutAttached = false ∧ s.stderrAttached = false

/-- The stream is marked closed exactly when a terminal event exists. -/
def closedIffTerm (s : ExecState) : Prop :=
  s.streamClosed = true ↔ s.termEv.isSome

/-- While the timer is still armed, the timeout path has not yet written
the interrupt flag. -/
def timerInv (s : ExecState) : Prop :=
  s.timerActive = true → s.timeoutInterruptSets = 0

/-- Invariant of an execution created with an already-aborted signal: the
snippet never starts and clearTimeout is never called. -/
def preAbortInv (s : ExecState) : Prop :=
  s.hasSignal = true ∧ s.preAborted = true ∧
  s.snippetStarted = false ∧ s.timerCleared = false

/-! ## Lemmas and claim theorems -/

/-! Helper lemmas about deduplication. -/

theorem dedupFirstAux_not_mem_seen (l : List String) :
    ∀ seen x, x ∈ dedupFirstAux seen l → x ∉ seen := by
  induction l with
  | nil => intro seen x h; simp [dedupFirstAux] at h
  | cons a l ih =>
    intro seen x h
    simp only [dedupFirstAux] at h
    by_cases hc : seen.contains a
    · rw [if_pos hc] at h
      exact ih seen x h
    · rw [if_neg hc] at h
      rcases List.mem_cons.mp h with h1 | h1
      · subst h1
        intro hx
        exact hc (List.elem_eq_true_of_mem hx)
      · intro hx
        exact ih (a :: seen) x h1 (List.mem_cons_of_mem a hx)

theorem dedupFirstAux_nodup (l : List String) :
    ∀ seen, (dedupFirstAux seen l).Nodup := by
  induction l with
  | nil => intro seen; simp [dedupFirstAux]
  | cons a l ih =>
    intro seen
    simp only [dedupFirstAux]
    by_cases hc : seen.contains a
    · rw [if_pos hc]; exact ih seen
    · rw [if_neg hc]
      refine List.nodup_cons.mpr ⟨?_, ih (a :: seen)⟩
      intro hmem
      exact dedupFirstAux_not_mem_seen l (a :: seen) a hmem (List.mem_cons_self a seen)

theorem dedupFirstAux_mem (l : List String) :
    ∀ seen x, x ∈ dedupFirstAux seen l ↔ x ∈ l ∧ x ∉ seen := by
  induction l with
  | nil => intro seen x; simp [dedupFirstAux]
  | cons a l ih =>
    intro seen x
    simp only [dedupFirstAux]
    by_cases hc : seen.contains a
    · rw [if_pos hc]
      rw [ih seen x]
      constructor
      · rintro ⟨h1, h2⟩
        exact ⟨List.mem_cons_of_mem a h1, h2⟩
      · rintro ⟨h1, h2⟩
        rcases List.mem_cons.mp h1 with h3 | h3
        · subst h3
          exact absurd (List.mem_of_elem_eq_true hc) h2
        · exact ⟨h3, h2⟩
    · rw [if_neg hc]
      constructor
      · intro h
        rcases List.mem_cons.mp h with h1 | h1
        · subst h1
          refine ⟨List.mem_cons_self x l, ?_⟩
          intro hx
          exact hc (List.elem_eq_true_of_mem hx)
        · rcases (ih (a :: seen) x).mp h1 with ⟨h2, h3⟩
          refine ⟨List.mem_cons_of_mem a h2, ?_⟩
          intro hx
          exact h3 (List.mem_cons_of_mem a hx)
      · rintro ⟨h1, h2⟩
        rcases List.mem_cons.mp h1 with h3 | h3
        · subst h3; exact List.mem_cons_self x _
        · by_cases hax : x = a
          · subst hax; exact List.mem_cons_self x _
          · refine List.mem_cons_of_mem a ((ih (a :: seen) x).mpr ⟨h3, ?_⟩)
            intro hx
            rcases List.mem_cons.mp hx with h4 | h4
            · exact hax h4
            · exact h2 h4

theorem dedupFirst_nodup (l : List String) : (dedupFirst l).Nodup :=
  dedupFirstAux_nodup l []

theorem dedupFirst_mem (l : List String) (x : String) :
    x ∈ dedupFirst l ↔ x ∈ l := by
  rw [dedupFirst, dedupFirstAux_mem]
  simp

/-- Calls made while a bootstrap promise is cached all share it. -/
theorem callsN_cached (n : Nat) (p : Nat) (a : Bool) (m : Nat) :
    callsN { inst := some p, attempted := a, nextId := m } n =
      ({ inst := some p, attempted := a, nextId := m },
       List.replicate n (.cachedAwait p)) := by
  induction n with
  | zero => rfl
  | succ n ih =>
    simp only [callsN, callStep]
    simp [ih, List.replicate]

/-- If every candidate fails, the loop attempts all of them, in order,
before declaring failure. -/
theorem tryCdnsAux_all_fail {H : Type} (attempt : String → Except String H)
    (urls : List String)
    (hfail : ∀ u ∈ urls, ∃ e, attempt u = .error e) :
    ∀ lastErr, (tryCdnsAux attempt lastErr urls).1 = urls ∧
      ∃ msg, (tryCdnsAux attempt lastErr urls).2 = .error msg := by
  induction urls with
  | nil =>
    intro lastErr
    exact ⟨rfl, _, rfl⟩
  | cons u rest ih =>
    intro lastErr
    obtain ⟨e, he⟩ := hfail u (List.mem_cons_self u rest)
    have hrest : ∀ v ∈ rest, ∃ e2, attempt v = .error e2 := by
      intro v hv
      exact hfail v (List.mem_cons_of_mem u hv)
    obtain ⟨h1, msg, h2⟩ := ih hrest (some e)
    constructor
    · simp only [tryCdnsAux, he, h1]
    · exact ⟨msg, by simp only [tryCdnsAux, he, h2]⟩

/-- If every candidate before `u` fails and `u` succeeds, the loop attempts
exactly the failing ones followed by `u`, in order, and returns the success
of `u`. -/
theorem tryCdnsAux_first_ok {H : Type} (attempt : String → Except String H)
    (pre : List String) (u : String) (rest : List String) (h : H)
    (hfail : ∀ v ∈ pre, ∃ e, attempt v = .error e)
    (hok : attempt u = .ok h) :
    ∀ lastErr, tryCdnsAux attempt lastErr (pre ++ u :: rest) =
      (pre ++ [u], .ok h) := by
  induction pre with
  | nil =>
    intro lastErr
    simp only [List.nil_append, tryCdnsAux, hok]
  | cons v pre2 ih =>
    intro lastErr
    obtain ⟨e, he⟩ := hfail v (List.mem_cons_self v pre2)
    have hpre2 : ∀ w ∈ pre2, ∃ e2, attempt w = .error e2 := by
      intro w hw
      exact hfail w (List.mem_cons_of_mem v hw)
    have hrw : tryCdnsAux attempt (some e) (pre2 ++ u :: rest) = (pre2 ++ [u], .ok h) :=
      ih hpre2 (some e)
    simp only [List.cons_append, tryCdnsAux, he]
    rw [show pre2.append (u :: rest) = pre2 ++ u :: rest from rfl, hrw]

theorem initExec_terminalSettled (hs p : Bool) :
    terminalSettled (initExec hs p) := by
  intro h
  unfold initExec at *
  by_cases hc : (hs && p) = true
  · simp [hc]
  · simp [hc] at h

theorem stepExec_terminalSettled (s : ExecState) (e : ExecEv)
    (hs : terminalSettled s) : terminalSettled (stepExec s e) := by
  cases e with
  | outData d =>
    simp only [stepExec]
    by_cases h1 : s.stdoutAttached
    · intro ht
      have ht0 : s.termEv.isSome := by
        simp only [h1, if_true, pushChunk] at ht
        split at ht <;> simpa using ht
      obtain ⟨a, b, c⟩ := hs ht0
      simp only [h1, if_true, pushChunk]
      split <;> simp [a, b, c]
    · simpa [h1] using hs
  | errData d =>
    simp only [stepExec]
    by_cases h1 : s.stderrAttached
    · intro ht
      have ht0 : s.termEv.isSome := by
        simp only [h1, if_true, pushChunk] at ht
        split at ht <;> simpa using ht
      obtain ⟨a, b, c⟩ := hs ht0
      simp only [h1, if_true, pushChunk]
      split <;> simp [a, b, c]
    · simpa [h1] using hs
  | timerFire =>
    simp only [stepExec]
    by_cases h1 : s.timerActive
    · simp only [h1, if_true]
      by_cases h2 : s.streamClosed
      · intro ht
        have ht0 : s.termEv.isSome := by simpa [h2] using ht
        obtain ⟨a, b, c⟩ := hs ht0
        simp [h2, a, b, c]
      · intro _
        simp [h2]
    · simpa [h1] using hs
  | abortFire =>
    simp only [stepExec]
    by_cases h1 : (s.hasSignal && !s.preAborted && !s.abortFired) = true
    · simp only [h1, if_true]
      intro _
      cases hte : s.termEv <;> simp [hte]
    · simpa [h1] using hs
  | deferredStep =>
    simp only [stepExec]
    by_cases h1 : s.deferredRun
    · simpa [h1] using hs
    · by_cases h2 : (s.hasSignal && (s.preAborted || s.abortFired)) = true
      · intro ht
        have ht0 : s.termEv.isSome := by simpa [h1, h2] using ht
        obtain ⟨a, b, c⟩ := hs ht0
        simp [h1, h2, a, b, c]
      · intro ht
        have ht0 : s.termEv.isSome := by simpa [h1, h2] using ht
        obtain ⟨a, b, c⟩ := hs ht0
        simp [h1, h2, a, b, c]
  | execDone =>
    simp only [stepExec]
    by_cases h1 : (s.snippetStarted && !s.execSettled) = true
    · simp only [h1, if_true]
      by_cases h2 : s.streamClosed
      · intro ht
        have ht0 : s.termEv.isSome := by simpa [h2] using ht
        obtain ⟨a, b, c⟩ := hs ht0
        simp [h2, a, b, c]
      · intro _
        simp [h2]
    · simpa [h1] using hs
  | execError m =>
    simp only [stepExec]
    by_cases h1 : (s.snippetStarted && !s.execSettled) = true
    · simp only [h1, if_true]
      by_cases h2 : s.streamClosed
      · intro ht
        have ht0 : s.termEv.isSome := by simpa [h2] using ht
        obtain ⟨a, b, c⟩ := hs ht0
        simp [h2, a, b, c]
      · intro _
        simp [h2]
    · simpa [h1] using hs

/-- After the terminal event, one further step changes neither the chunk
list nor the terminal event. -/
theorem stepExec_after_terminal (s : ExecState) (e : ExecEv)
    (hs : terminalSettled s) (ht : s.termEv.isSome) :
    (stepExec s e).chunks = s.chunks ∧ (stepExec s e).termEv = s.termEv := by
  obtain ⟨hcl, hout, herr⟩ := hs ht
  cases e with
  | outData d => simp [stepExec, hout]
  | errData d => simp [stepExec, herr]
  | timerFire =>
    by_cases h1 : s.timerActive
    · simp [stepExec, h1, hcl]
    · simp [stepExec, h1]
  | abortFire =>
    by_cases h1 : (s.hasSignal && !s.preAborted && !s.abortFired) = true
    · cases hte : s.termEv with
      | none => rw [hte] at ht; simp at ht
      | some t => simp [stepExec, h1, hte]
    · simp [stepExec, h1]
  | deferredStep =>
    by_cases h1 : s.deferredRun
    · simp [stepExec, h1]
    · by_cases h2 : (s.hasSignal && (s.preAborted || s.abortFired)) = true
      · simp [stepExec, h1, h2]
      · simp [stepExec, h1, h2]
  | execDone =>
    by_cases h1 : (s.snippetStarted && !s.execSettled) = true
    · simp [stepExec, h1, hcl]
    · simp [stepExec, h1]
  | execError m =>
    by_cases h1 : (s.snippetStarted && !s.execSettled) = true
    · simp [stepExec, h1, hcl]
    · simp [stepExec, h1]

theorem runExec_terminalSettled (s : ExecState) (evs : List ExecEv)
    (hs : terminalSettled s) : terminalSettled (runExec s evs) := by
  induction evs generalizing s with
  | nil => exact hs
  | cons e evs ih => exact ih _ (stepExec_terminalSettled s e hs)

/-- After the terminal event, a whole further trace changes neither the
chunk list nor the terminal event. -/
theorem runExec_after_terminal (s : ExecState) (evs : List ExecEv)
    (hs : terminalSettled s) (ht : s.termEv.isSome) :
    (runExec s evs).chunks = s.chunks ∧ (runExec s evs).termEv = s.termEv := by
  induction evs generalizing s with
  | nil => exact ⟨rfl, rfl⟩
  | cons e evs ih =>
    obtain ⟨hc, hte⟩ := stepExec_after_terminal s e hs ht
    have hs2 := stepExec_terminalSettled s e hs
    have ht2 : (stepExec s e).termEv.isSome := by rw [hte]; exact ht
    obtain ⟨hc2, hte2⟩ := ih (stepExec s e) hs2 ht2
    exact ⟨hc2.trans hc, hte2.trans hte⟩

theorem initExec_closedIffTerm (hs p : Bool) : closedIffTerm (initExec hs p) := by
  unfold initExec closedIffTerm
  by_cases hc : (hs && p) = true <;> simp [hc]

theorem stepExec_closedIffTerm (s : ExecState) (e : ExecEv)
    (hs : closedIffTerm s) : closedIffTerm (stepExec s e) := by
  cases e with
  | outData d =>
    simp only [stepExec]
    by_cases h1 : s.stdoutAttached
    · simp only [h1, if_true, pushChunk]
      split <;> simpa [closedIffTerm] using hs
    · simpa [h1] using hs
  | errData d =>
    simp only [stepExec]
    by_cases h1 : s.stderrAttached
    · simp only [h1, if_true, pushChunk]
      split <;> simpa [closedIffTerm] using hs
    · simpa [h1] using hs
  | timerFire =>
    simp only [stepExec]
    by_cases h1 : s.timerActive
    · by_cases h2 : s.streamClosed
      · simpa [h1, h2, closedIffTerm] using hs
      · simp [h1, h2, closedIffTerm]
    · simpa [h1] using hs
  | abortFire =>
    simp only [stepExec]
    by_cases h1 : (s.hasSignal && !s.preAborted && !s.abortFired) = true
    · simp only [h1, if_true]
      cases hte : s.termEv <;> simp [closedIffTerm]
    · simpa [h1] using hs
  | deferredStep =>
    simp only [stepExec]
    by_cases h1 : s.deferredRun
    · simpa [h1] using hs
    · by_cases h2 : (s.hasSignal && (s.preAborted || s.abortFired)) = true
      · simpa [h1, h2, closedIffTerm] using hs
      · simpa [h1, h2, closedIffTerm] using hs
  | execDone =>
    simp only [stepExec]
    by_cases h1 : (s.snippetStarted && !s.execSettled) = true
    · by_cases h2 : s.streamClosed
      · simpa [h1, h2, closedIffTerm] using hs
      · simp [h1, h2, closedIffTerm]
    · simpa [h1] using hs
  | execError m =>
    simp only [stepExec]
    by_cases h1 : (s.snippetStarted && !s.execSettled) = true
    · by_cases h2 : s.streamClosed
      · simpa [h1, h2, closedIffTerm] using hs
      · simp [h1, h2, closedIffTerm]
    · simpa [h1] using hs

theorem runExec_closedIffTerm (s : ExecState) (evs : List ExecEv)
    (hs : closedIffTerm s) : closedIffTerm (runExec s evs) := by
  induction evs generalizing s with
  | nil => exact hs
  | cons e evs ih => exact ih _ (stepExec_closedIffTerm s e hs)

/-- The timeout timer is one-shot and is never re-armed: once inactive it
stays inactive, and the count of interrupt writes from the timeout path is
frozen. -/
theorem stepExec_timer_off (s : ExecState) (e : ExecEv)
    (h : s.timerActive = false) :
    (stepExec s e).timerActive = false ∧
    (stepExec s e).timeoutInterruptSets = s.timeoutInterruptSets := by
  cases e with
  | outData d =>
    simp only [stepExec]
    by_cases h1 : s.stdoutAttached
    · simp only [h1, if_true, pushChunk]
      split <;> simp [h]
    · simp [h1, h]
  | errData d =>
    simp only [stepExec]
    by_cases h1 : s.stderrAttached
    · simp only [h1, if_true, pushChunk]
      split <;> simp [h]
    · simp [h1, h]
  | timerFire => simp [stepExec, h]
  | abortFire =>
    simp only [stepExec]
    by_cases h1 : (s.hasSignal && !s.preAborted && !s.abortFired) = true
    · simp only [h1, if_true]
      cases hte : s.termEv <;> simp [h]
    · simp [h1, h]
  | deferredStep =>
    simp only [stepExec]
    by_cases h1 : s.deferredRun
    · simp [h1, h]
    · by_cases h2 : (s.hasSignal && (s.preAborted || s.abortFired)) = true
      · simp [h1, h2, h]
      · simp [h1, h2, h]
  | execDone =>
    simp only [stepExec]
    by_cases h1 : (s.snippetStarted && !s.execSettled) = true
    · by_cases h2 : s.streamClosed <;> simp [h1, h2]
    · simp [h1, h]
  | execError m =>
    simp only [stepExec]
    by_cases h1 : (s.snippetStarted && !s.execSettled) = true
    · by_cases h2 : s.streamClosed <;> simp [h1, h2]
    · simp [h1, h]

theorem runExec_timer_off (s : ExecState) (evs : List ExecEv)
    (h : s.timerActive = false) :
    (runExec s evs).timerActive = false ∧
    (runExec s evs).timeoutInterruptSets = s.timeoutInterruptSets := by
  induction evs generalizing s with
  | nil => exact ⟨h, rfl⟩
  | cons e evs ih =>
    obtain ⟨h1, h2⟩ := stepExec_timer_off s e h
    obtain ⟨h3, h4⟩ := ih _ h1
    exact ⟨h3, h4.trans h2⟩

theorem initExec_timerInv (hs p : Bool) : timerInv (initExec hs p) := by
  unfold initExec timerInv
  by_cases hc : (hs && p) = true <;> simp [hc]

theorem stepExec_timerInv (s : ExecState) (e : ExecEv)
    (hs : timerInv s) : timerInv (stepExec s e) := by
  by_cases h : s.timerActive
  · have h0 := hs h
    cases e with
    | outData d =>
      simp only [stepExec]
      by_cases h1 : s.stdoutAttached
      · simp only [h1, if_true, pushChunk]
        split <;> (intro _; exact h0)
      · simp only [h1]
        intro _; exact h0
    | errData d =>
      simp only [stepExec]
      by_cases h1 : s.stderrAttached
      · simp only [h1, if_true, pushChunk]
        split <;> (intro _; exact h0)
      · simp only [h1]
        intro _; exact h0
    | timerFire =>
      simp only [stepExec, h, if_true]
      by_cases h2 : s.streamClosed <;> simp [h2, timerInv]
    | abortFire =>
      simp only [stepExec]
      by_cases h1 : (s.hasSignal && !s.preAborted && !s.abortFired) = true
      · simp only [h1, if_true]
        cases hte : s.termEv <;> (intro _; exact h0)
      · simp only [h1]
        intro _; exact h0
    | deferredStep =>
      simp only [stepExec]
      by_cases h1 : s.deferredRun
      · simp only [h1]
        intro _; exact h0
      · by_cases h2 : (s.hasSignal && (s.preAborted || s.abortFired)) = true
        · simp only [h1, h2]
          intro _; exact h0
        · simp only [h1, h2]
          intro _; exact h0
    | execDone =>
      simp only [stepExec]
      by_cases h1 : (s.snippetStarted && !s.execSettled) = true
      · by_cases h2 : s.streamClosed <;> simp [h1, h2, timerInv]
      · simp only [h1]
        intro _; exact h0
    | execError m =>
      simp only [stepExec]
      by_cases h1 : (s.snippetStarted && !s.execSettled) = true
      · by_cases h2 : s.streamClosed <;> simp [h1, h2, timerInv]
      · simp only [h1]
        intro _; exact h0
  · intro h2
    obtain ⟨h3, _⟩ := stepExec_timer_off s e (by simpa using h)
    rw [h2] at h3
    cases h3

theorem runExec_timerInv (s : ExecState) (evs : List ExecEv)
    (hs : timerInv s) : timerInv (runExec s evs) := by
  induction evs generalizing s with
  | nil => exact hs
  | cons e evs ih => exact ih _ (stepExec_timerInv s e hs)

theorem initExec_preAbortInv : preAbortInv (initExec true true) := by
  unfold initExec preAbortInv
  simp

theorem stepExec_preAbortInv (s : ExecState) (e : ExecEv)
    (hs : preAbortInv s) : preAbortInv (stepExec s e) := by
  obtain ⟨hsig, hpre, hsn, htc⟩ := hs
  cases e with
  | outData d =>
    simp only [stepExec]
    by_cases h1 : s.stdoutAttached
    · simp only [h1, if_true, pushChunk]
      split <;> exact ⟨hsig, hpre, hsn, htc⟩
    · exact (by simpa [h1] using ⟨hsig, hpre, hsn, htc⟩)
  | errData d =>
    simp only [stepExec]
    by_cases h1 : s.stderrAttached
    · simp only [h1, if_true, pushChunk]
      split <;> exact ⟨hsig, hpre, hsn, htc⟩
    · exact (by simpa [h1] using ⟨hsig, hpre, hsn, htc⟩)
  | timerFire =>
    simp only [stepExec]
    by_cases h1 : s.timerActive
    · by_cases h2 : s.streamClosed <;> simp [h1, h2, preAbortInv, hsig, hpre, hsn, htc]
    · simp [h1, preAbortInv, hsig, hpre, hsn, htc]
  | abortFire =>
    simp only [stepExec]
    have : (s.hasSignal && !s.preAborted && !s.abortFired) = false := by
      simp [hpre]
    simp [this, preAbortInv, hsig, hpre, hsn, htc]
  | deferredStep =>
    simp only [stepExec]
    by_cases h1 : s.deferredRun
    · simp [h1, preAbortInv, hsig, hpre, hsn, htc]
    · have h2 : (s.hasSignal && (s.preAborted || s.abortFired)) = true := by
        simp [hsig, hpre]
      simp [h1, h2, preAbortInv, hsig, hpre, hsn, htc]
  | execDone =>
    simp only [stepExec]
    have : (s.snippetStarted && !s.execSettled) = false := by simp [hsn]
    simp [this, preAbortInv, hsig, hpre, hsn, htc]
  | execError m =>
    simp only [stepExec]
    have : (s.snippetStarted && !s.execSettled) = false := by simp [hsn]
    simp [this, preAbortInv, hsig, hpre, hsn, htc]

theorem runExec_preAbortInv (s : ExecState) (evs : List ExecEv)
    (hs : preAbortInv s) : preAbortInv (runExec s evs) := by
  induction evs generalizing s with
  | nil => exact hs
  | cons e evs ih => exact ih _ (stepExec_preAbortInv s e hs)

/-- The shape of `n + 1` consecutive first-time calls from the initial
state: the first marks the attempt and starts bootstrap number 0, all the
rest find the cached promise. -/
theorem callsN_init (n : Nat) :
    callsN initSingleton (n + 1) =
      ({ inst := some 0, attempted := true, nextId := 1 },
       CallResult.startedAwait 0 :: List.replicate n (.cachedAwait 0)) := by
  simp only [callsN]
  rw [show callStep initSingleton =
    ({ inst := some 0, attempted := true, nextId := 1 },
     CallResult.startedAwait 0) from rfl]
  rw [callsN_cached]

/-! ## Claim theorems -/

/-- Claim C1: for every set of concurrent first-time callers of getPyodide,
the bootstrap (loadPyodide) is started exactly once (the final nextId is 1),
every caller awaits the same bootstrap promise 0 and hence observes the same
success-or-failure outcome, and once a bootstrap has succeeded every
subsequent call returns the cached promise immediately without starting any
further bootstrap. -/
theorem claim_C1_singleton_bootstrap_once (k : Nat) (hk : 1 ≤ k) :
    (callsN initSingleton k).1 =
      { inst := some 0, attempted := true, nextId := 1 } ∧
    (callsN initSingleton k).2 =
      CallResult.startedAwait 0 :: List.replicate (k - 1) (.cachedAwait 0) ∧
    (∀ f : Nat → BOutcome, ∀ r ∈ (callsN initSingleton k).2,
      observe f r = some (f 0)) ∧
    (∀ j, callsN (resolveStep (callsN initSingleton k).1 .success) j =
      ({ inst := some 0, attempted := true, nextId := 1 },
       List.replicate j (.cachedAwait 0))) := by
  obtain ⟨n, rfl⟩ : ∃ n, k = n + 1 :=
    ⟨k - 1, (Nat.succ_pred_eq_of_pos hk).symm⟩
  have hmain := callsN_init n
  refine ⟨by rw [hmain], by rw [hmain]; simp, ?_, ?_⟩
  · intro f r hr
    rw [hmain] at hr
    rcases List.mem_cons.mp hr with h | h
    · subst h; rfl
    · have h2 := List.eq_of_mem_replicate h
      subst h2; rfl
  · intro j
    rw [hmain]
    exact callsN_cached j 0 true 1

/-- Witness for claim C1: three concurrent first-time callers produce one
bootstrap start and two cache hits on the same promise. -/
theorem claim_C1_singleton_bootstrap_once_witness :
    (callsN initSingleton 3).1 =
      { inst := some 0, attempted := true, nextId := 1 } ∧
    (callsN initSingleton 3).2 =
      [.startedAwait 0, .cachedAwait 0, .cachedAwait 0] := by
  obtain ⟨h1, h2, _, _⟩ := claim_C1_singleton_bootstrap_once 3 (by decide)
  exact ⟨h1, by rw [h2]; decide⟩

/-- Claim C9: when loadPyodide takes at least the 60000 ms hard timeout, the
Promise.race outcome is the timeout failure for every load outcome; all
concurrent waiters observe that same failure; the resolve continuation
resets the module state (instance cleared, attempt flag cleared); a
subsequent call retries the bootstrap from scratch (a new bootstrap id is
started); and no resolve step ever starts a bootstrap by itself (no
automatic background retry). -/
theorem claim_C9_init_timeout_fails_all_and_resets
    (k : Nat) (hk : 1 ≤ k) (loadTime : Option Nat) (loadOut : BOutcome)
    (hslow : ∀ t, loadTime = some t → initTimeoutMs ≤ t) :
    raceOutcome loadTime loadOut = .failure initTimeoutMsg ∧
    (∀ r ∈ (callsN initSingleton k).2,
      observe (fun _ => raceOutcome loadTime loadOut) r =
        some (.failure initTimeoutMsg)) ∧
    resolveStep (callsN initSingleton k).1 (.failure initTimeoutMsg) =
      { inst := none, attempted := false, nextId := 1 } ∧
    callStep { inst := none, attempted := false, nextId := 1 } =
      ({ inst := some 1, attempted := true, nextId := 2 },
       .startedAwait 1) ∧
    (∀ s o, (resolveStep s o).nextId = s.nextId) := by
  have hrace : raceOutcome loadTime loadOut = .failure initTimeoutMsg := by
    cases loadTime with
    | none => rfl
    | some t =>
      have ht := hslow t rfl
      simp [raceOutcome, Nat.not_lt.mpr ht]
  obtain ⟨n, rfl⟩ : ∃ n, k = n + 1 :=
    ⟨k - 1, (Nat.succ_pred_eq_of_pos hk).symm⟩
  have hmain := callsN_init n
  refine ⟨hrace, ?_, by rw [hmain]; rfl, rfl, ?_⟩
  · intro r hr
    rw [hmain] at hr
    rcases List.mem_cons.mp hr with h | h
    · subst h
      simp [observe, hrace]
    · have h2 := List.eq_of_mem_replicate h
      subst h2
      simp [observe, hrace]
  · intro s o
    cases o <;> rfl

/-- Witness for claim C9: a load settling exactly at 60000 ms loses the
race; with two concurrent waiters the state resets and a retry starts
bootstrap number 1. -/
theorem claim_C9_init_timeout_fails_all_and_resets_witness :
    raceOutcome (some 60000) .success = .failure initTimeoutMsg ∧
    resolveStep (callsN initSingleton 2).1 (.failure initTimeoutMsg) =
      { inst := none, attempted := false, nextId := 1 } ∧
    callStep { inst := none, attempted := false, nextId := 1 } =
      ({ inst := some 1, attempted := true, nextId := 2 },
       .startedAwait 1) := by
  obtain ⟨h1, _, h3, h4, _⟩ :=
    claim_C9_init_timeout_fails_all_and_resets 2 (by decide) (some 60000)
      .success (by intro t ht; injection ht with h; subst h; decide)
  exact ⟨h1, h3, h4⟩

/-- Claim C8: runtime initialization of the CDN-fallback getPyodide variant
fetches bootstrap assets from several equivalent sources in priority order:
the caller-configured source is first in the candidate list, followed by
the fallback mirrors; when a source fails the next is tried, and failure is
declared only after every candidate was attempted and failed, while the
first success short-circuits the loop. -/
theorem claim_C8_cdn_priority_fallback
    {H : Type} (attempt : String → Except String H)
    (custom ver : String) (hc : custom ≠ "")
    (urls : List String) :
    cdnUrls (some custom) ver =
      (stripTrailingSlash custom ++ "/") ::
        [fastlyUrl ver, cdnJsdelivrUrl ver, unpkgUrl ver] ∧
    ((∀ u ∈ urls, ∃ e, attempt u = .error e) →
      (tryCdns attempt urls).1 = urls ∧
      ∃ msg, (tryCdns attempt urls).2 = .error msg) ∧
    (∀ pre u rest h2, urls = pre ++ u :: rest →
      (∀ v ∈ pre, ∃ e, attempt v = .error e) →
      attempt u = .ok h2 →
      tryCdns attempt urls = (pre ++ [u], .ok h2)) := by
  refine ⟨?_, ?_, ?_⟩
  · simp [cdnUrls, hc]
  · intro hfail
    exact tryCdnsAux_all_fail attempt urls hfail none
  · intro pre u rest h2 hsplit hpre hok
    rw [hsplit]
    exact tryCdnsAux_first_ok attempt pre u rest h2 hpre hok none

/-- Witness for claim C8: with a configured mirror the candidate list puts
it first; with the first source down and the second up, the loop tries the
first, then succeeds on the second without touching the third. -/
theorem claim_C8_cdn_priority_fallback_witness :
    cdnUrls (some "https://mirror.example") "0.27.7" =
      ["https://mirror.example/", fastlyUrl "0.27.7",
       cdnJsdelivrUrl "0.27.7", unpkgUrl "0.27.7"] ∧
    tryCdns (fun u => if u = "b" then Except.ok () else Except.error "down")
      ["a", "b", "c"] = (["a", "b"], .ok ()) := by
  obtain ⟨h1, _, h3⟩ :=
    claim_C8_cdn_priority_fallback
      (fun u => if u = "b" then Except.ok () else Except.error "down")
      "https://mirror.example" "0.27.7" (by decide) ["a", "b", "c"]
  refine ⟨by rw [h1]; decide, ?_⟩
  have h4 := h3 ["a"] "b" ["c"] () rfl ?hpre ?hok
  case hpre =>
    intro v hv
    refine ⟨"down", ?_⟩
    simp only [List.mem_singleton] at hv
    subst hv
    simp
  case hok => simp
  simpa using h4

/-- Claim C5: for every missing import name and every pair of built-in
alias table and caller-supplied override table, loadDeps maps the name
through the merged map where the override entry takes precedence over the
built-in entry for the same key, names absent from both maps pass through
unchanged, and the resulting package list is deduplicated with empty or
whitespace-only entries dropped. -/
theorem claim_C5_dependency_mapping
    (ov : List (String × String)) (imports : List String)
    (name v name2 : String)
    (hov : lookupMap ov name = some v) (hv : v ≠ "")
    (h2a : lookupMap ov name2 = none)
    (h2b : lookupMap defaultMappings name2 = none) :
    mapImportName ov name = v ∧
    mapImportName ov name2 = name2 ∧
    (uniquePackages ov imports).Nodup ∧
    (∀ p ∈ uniquePackages ov imports, isNonBlank p = true) ∧
    (∀ p, p ∈ uniquePackages ov imports ↔
      isNonBlank p = true ∧ ∃ n ∈ imports, mapImportName ov n = p) := by
  refine ⟨?_, ?_, ?_, ?_, ?_⟩
  · unfold mapImportName combinedLookup
    rw [hov]
    simp [hv]
  · unfold mapImportName combinedLookup
    rw [h2a, h2b]
  · exact List.Nodup.filter _ (dedupFirst_nodup _)
  · intro p hp
    exact (List.mem_filter.mp hp).2
  · intro p
    unfold uniquePackages
    rw [List.mem_filter, dedupFirst_mem]
    unfold packagesToInstall
    rw [List.mem_map]
    constructor
    · rintro ⟨⟨n, hn, hmap⟩, hb⟩
      exact ⟨hb, n, hn, hmap⟩
    · rintro ⟨hb, n, hn, hmap⟩
      exact ⟨⟨n, hn, hmap⟩, hb⟩

/-- Witness for claim C5: a caller override for PIL shadows the built-in
Pillow alias, an unmapped name passes through, and the package list for a
snippet with duplicate and whitespace-producing imports is deduplicated and
cleaned. -/
theorem claim_C5_dependency_mapping_witness :
    mapImportName [("PIL", "pillow-simd")] "PIL" = "pillow-simd" ∧
    mapImportName [("PIL", "pillow-simd")] "requests" = "requests" ∧
    (uniquePackages [("PIL", "pillow-simd")]
      ["sklearn", "PIL", "sklearn", "   ", "requests"]).Nodup ∧
    uniquePackages [("PIL", "pillow-simd")]
      ["sklearn", "PIL", "sklearn", "   ", "requests"] =
      ["scikit-learn", "pillow-simd", "requests"] := by
  obtain ⟨h1, h2, h3, _, _⟩ :=
    claim_C5_dependency_mapping [("PIL", "pillow-simd")]
      ["sklearn", "PIL", "sklearn", "   ", "requests"]
      "PIL" "pillow-simd" "requests" (by decide) (by decide) (by decide) (by decide)
  refine ⟨h1, h2, h3, by decide⟩

/-- Claim C6: every failure inside dependency preflight is caught and
treated as nothing-to-install: an exception from the analysis or installer
setup makes loadDeps return the recovered outcome instead of raising; once
analysis and pip setup succeed no exception can escape regardless of
installation failures; and a failed batch install falls back to
one-at-a-time installation that attempts every package, continuing past
individual failures. -/
theorem claim_C6_preflight_never_blocks
    (env : PipEnv) (ov : List (String × String)) (e : String)
    (henv : loadDepsTry env ov = .error e)
    (env2 : PipEnv) (pkgs : List String) (be : String)
    (hbatch : env2.batchInstall pkgs = .error be) :
    loadDeps env ov = .recovered e ∧
    (∀ env3 ov3 imports, env3.analysis = .ok imports →
      env3.pipLoad = .ok () →
      ∃ out, loadDepsTry env3 ov3 = .ok out) ∧
    installAttempts env2 pkgs =
      .batchFail pkgs :: pkgs.map (fun p =>
        match env2.install p with
        | .ok _ => .pkgOk p
        | .error _ => .pkgFail p) ∧
    (∀ p ∈ pkgs, InstallEv.pkgOk p ∈ installAttempts env2 pkgs ∨
      InstallEv.pkgFail p ∈ installAttempts env2 pkgs) := by
  refine ⟨?_, ?_, ?_, ?_⟩
  · unfold loadDeps
    rw [henv]
  · intro env3 ov3 imports ha hp
    unfold loadDepsTry
    rw [ha, hp]
    by_cases h1 : imports.isEmpty
    · exact ⟨.noMissing, by simp [h1]⟩
    · by_cases h2 : (uniquePackages ov3 imports).isEmpty
      · exact ⟨.nothingToInstall, by simp [h1, h2]⟩
      · exact ⟨.installed (installAttempts env3 (uniquePackages ov3 imports)),
          by simp [h1, h2]⟩
  · unfold installAttempts
    rw [hbatch]
  · intro p hp
    unfold installAttempts
    rw [hbatch]
    cases hi : env2.install p with
    | ok u =>
      left
      refine List.mem_cons_of_mem _ (List.mem_map.mpr ⟨p, hp, ?_⟩)
      rw [hi]
    | error e2 =>
      right
      refine List.mem_cons_of_mem _ (List.mem_map.mpr ⟨p, hp, ?_⟩)
      rw [hi]

/-- Witness for claim C6: an analysis crash is downgraded to a recovered
outcome, and a batch failure over one good and one bad package produces the
individual fallback attempts for both. -/
theorem claim_C6_preflight_never_blocks_witness :
    loadDeps
      { analysis := .error "analysis boom",
        pipLoad := .ok (),
        batchInstall := fun _ => .ok (),
        install := fun _ => .ok () } [] = .recovered "analysis boom" ∧
    installAttempts
      { analysis := .ok ["good", "bad"],
        pipLoad := .ok (),
        batchInstall := fun _ => .error "batch down",
        install := fun p => if p = "bad" then .error "nope" else .ok () }
      ["good", "bad"] =
      [.batchFail ["good", "bad"], .pkgOk "good", .pkgFail "bad"] := by
  obtain ⟨h1, _, h3, _⟩ :=
    claim_C6_preflight_never_blocks
      { analysis := .error "analysis boom",
        pipLoad := .ok (),
        batchInstall := fun _ => .ok (),
        install := fun _ => .ok () } [] "analysis boom" rfl
      { analysis := .ok ["good", "bad"],
        pipLoad := .ok (),
        batchInstall := fun _ => .error "batch down",
        install := fun p => if p = "bad" then .error "nope" else .ok () }
      ["good", "bad"] "batch down" rfl
  exact ⟨h1, by rw [h3]; decide⟩

/-- Claim C10: runPy invokes dependency preflight with only the built-in
alias table: the importToPackageMap accepted at the RPC layer is never
forwarded through runPy to loadDeps, so the dependency work performed
before execution is identical for any two override maps, and the merged
map in effect is exactly the built-in table. -/
theorem claim_C10_rpc_override_map_ignored
    (env : PipEnv) (m1 m2 : List (String × String)) :
    runPyDeps env m1 = runPyDeps env m2 ∧
    runPyDeps env m1 = loadDeps env [] ∧
    (∀ k, combinedLookup [] k = lookupMap defaultMappings k) := by
  refine ⟨rfl, rfl, ?_⟩
  intro k
  unfold combinedLookup lookupMap
  simp

/-- Claim C2: for every execution stream returned by runPy, once the stream
has recorded its single terminal event (normal close, timeout close,
cancellation error, or runtime error), both output sinks are already
detached, and no further trace of events can change the chunk list or the
terminal event. -/
theorem claim_C2_stream_silent_after_terminal
    (hasSig pre : Bool) (evs post : List ExecEv)
    (ht : (runExec (initExec hasSig pre) evs).termEv.isSome) :
    (runExec (initExec hasSig pre) evs).stdoutAttached = false ∧
    (runExec (initExec hasSig pre) evs).stderrAttached = false ∧
    (runExec (runExec (initExec hasSig pre) evs) post).chunks =
      (runExec (initExec hasSig pre) evs).chunks ∧
    (runExec (runExec (initExec hasSig pre) evs) post).termEv =
      (runExec (initExec hasSig pre) evs).termEv := by
  have hsett := runExec_terminalSettled (initExec hasSig pre) evs
    (initExec_terminalSettled hasSig pre)
  obtain ⟨_, hout, herr⟩ := hsett ht
  obtain ⟨hc, hte⟩ := runExec_after_terminal _ post hsett ht
  exact ⟨hout, herr, hc, hte⟩

/-- Witness for claim C2: a completed execution that produced one chunk has
its sinks detached, and late writes, a late timer and late stderr data
leave the chunk list and the terminal event untouched. -/
theorem claim_C2_stream_silent_after_terminal_witness :
    (runExec (initExec false false)
      [.deferredStep, .outData "hi", .execDone]).stdoutAttached = false ∧
    (runExec (initExec false false)
      [.deferredStep, .outData "hi", .execDone]).stderrAttached = false ∧
    (runExec (runExec (initExec false false)
        [.deferredStep, .outData "hi", .execDone])
      [.outData "late", .timerFire, .errData "x"]).chunks =
      (runExec (initExec false false)
        [.deferredStep, .outData "hi", .execDone]).chunks ∧
    (runExec (runExec (initExec false false)
        [.deferredStep, .outData "hi", .execDone])
      [.outData "late", .timerFire, .errData "x"]).termEv =
      (runExec (initExec false false)
        [.deferredStep, .outData "hi", .execDone]).termEv :=
  claim_C2_stream_silent_after_terminal false false
    [.deferredStep, .outData "hi", .execDone]
    [.outData "late", .timerFire, .errData "x"] (by decide)

/-- Claim C3: for every execution whose stream is still open when the
timeout timer fires, the timer handler appends the timeout notice as a
content chunk, closes the stream cleanly (not through the error channel),
and writes the interrupt flag; this timeout write happens exactly once:
never before the timer fired, and never again afterwards; nor can any later
event extend the chunk list past the notice. -/
theorem claim_C3_timeout_notice_and_single_interrupt
    (hasSig pre : Bool) (evs : List ExecEv)
    (hact : (runExec (initExec hasSig pre) evs).timerActive = true)
    (hopen : (runExec (initExec hasSig pre) evs).streamClosed = false) :
    (runExec (initExec hasSig pre) evs).timeoutInterruptSets = 0 ∧
    (stepExec (runExec (initExec hasSig pre) evs) .timerFire).chunks =
      (runExec (initExec hasSig pre) evs).chunks ++ [timeoutNotice] ∧
    (stepExec (runExec (initExec hasSig pre) evs) .timerFire).termEv =
      some .closed ∧
    (stepExec (runExec (initExec hasSig pre) evs) .timerFire).interruptVal = 3 ∧
    (stepExec (runExec (initExec hasSig pre) evs) .timerFire).timeoutInterruptSets
      = 1 ∧
    (∀ post,
      (runExec (stepExec (runExec (initExec hasSig pre) evs) .timerFire)
        post).timeoutInterruptSets = 1) ∧
    (∀ post,
      (runExec (stepExec (runExec (initExec hasSig pre) evs) .timerFire)
        post).chunks =
      (runExec (initExec hasSig pre) evs).chunks ++ [timeoutNotice]) := by
  have hinv := runExec_timerInv (initExec hasSig pre) evs
    (initExec_timerInv hasSig pre)
  have hz : (runExec (initExec hasSig pre) evs).timeoutInterruptSets = 0 :=
    hinv hact
  have hstep : stepExec (runExec (initExec hasSig pre) evs) .timerFire =
      { runExec (initExec hasSig pre) evs with
          timerActive := false, timerFired := true,
          chunks := (runExec (initExec hasSig pre) evs).chunks ++ [timeoutNotice],
          termEv := some .closed, streamClosed := true,
          stdoutAttached := false, stderrAttached := false,
          interruptVal := 3, timeoutInterruptSets := 1 } := by
    simp only [stepExec, hact, if_true, hopen]
    simp [hz, hopen]
  have hsett1 : terminalSettled
      (stepExec (runExec (initExec hasSig pre) evs) .timerFire) :=
    stepExec_terminalSettled _ _ (runExec_terminalSettled _ evs
      (initExec_terminalSettled hasSig pre))
  have hterm1 : (stepExec (runExec (initExec hasSig pre) evs)
      .timerFire).termEv.isSome := by
    rw [hstep]
    rfl
  refine ⟨hz, by rw [hstep], by rw [hstep], by rw [hstep], by rw [hstep],
    ?_, ?_⟩
  · intro post
    obtain ⟨_, hfr⟩ := runExec_timer_off
      (stepExec (runExec (initExec hasSig pre) evs) .timerFire) post
      (by rw [hstep])
    rw [hfr, hstep]
  · intro post
    obtain ⟨hc, _⟩ := runExec_after_terminal _ post hsett1 hterm1
    rw [hc, hstep]

/-- Witness for claim C3: an execution that produced one chunk and then hit
the timeout: the notice is appended, the stream closes cleanly, the flag is
written once, and a later settle of the interrupted snippet adds nothing. -/
theorem claim_C3_timeout_notice_and_single_interrupt_witness :
    (runExec (initExec false false)
      [.deferredStep, .outData "sofar"]).timeoutInterruptSets = 0 ∧
    (stepExec (runExec (initExec false false)
      [.deferredStep, .outData "sofar"]) .timerFire).chunks =
      ["sofar", timeoutNotice] ∧
    (stepExec (runExec (initExec false false)
      [.deferredStep, .outData "sofar"]) .timerFire).termEv = some .closed ∧
    (runExec (stepExec (runExec (initExec false false)
        [.deferredStep, .outData "sofar"]) .timerFire)
      [.execError "KeyboardInterrupt"]).timeoutInterruptSets = 1 ∧
    (runExec (stepExec (runExec (initExec false false)
        [.deferredStep, .outData "sofar"]) .timerFire)
      [.execError "KeyboardInterrupt"]).chunks =
      ["sofar", timeoutNotice] := by
  obtain ⟨h1, h2, h3, _, _, h6, h7⟩ :=
    claim_C3_timeout_notice_and_single_interrupt false false
      [.deferredStep, .outData "sofar"] (by decide) (by decide)
  refine ⟨h1, by rw [h2]; decide, h3,
    h6 [.execError "KeyboardInterrupt"],
    by rw [h7 [.execError "KeyboardInterrupt"]]; decide⟩

/-- Claim C7 counterexample: when the cancellation token is already
triggered at stream creation, the stream does error immediately, but the
producer callback body has run (makeStream invokes onStart before checking
the aborted flag), contradicting the claim that it never runs. -/
theorem claim_C7_counterexample_producer_runs :
    (initExec true true).termEv = some (.errored abortReason) ∧
    (initExec true true).producerRan = true := by
  decide

/-- Claim C7 as amended: with a cancellation token already triggered at
creation, the stream errors immediately and the snippet is never executed
(the deferred task sees the aborted token and returns), although the
producer callback itself has already run, attaching the sinks and arming
the timeout timer before the abort check fires. -/
theorem claim_C7_amended_pre_abort_no_snippet (evs : List ExecEv) :
    (initExec true true).termEv = some (.errored abortReason) ∧
    (initExec true true).producerRan = true ∧
    (runExec (initExec true true) evs).snippetStarted = false := by
  refine ⟨by decide, by decide, ?_⟩
  obtain ⟨_, _, hsn, _⟩ :=
    runExec_preAbortInv (initExec true true) evs initExec_preAbortInv
  exact hsn

/-- On the normal-completion step the timer is cleared and the sinks end up
detached. -/
theorem stepExec_execDone_cleanup (s : ExecState)
    (hst : s.snippetStarted = true) (hse : s.execSettled = false)
    (hcs : closedIffTerm s) (hts : terminalSettled s) :
    (stepExec s .execDone).timerCleared = true ∧
    (stepExec s .execDone).timerActive = false ∧
    (stepExec s .execDone).stdoutAttached = false ∧
    (stepExec s .execDone).stderrAttached = false := by
  have hg : (s.snippetStarted && !s.execSettled) = true := by simp [hst, hse]
  by_cases h2 : s.streamClosed
  · have hterm : s.termEv.isSome := hcs.mp h2
    obtain ⟨_, hout, herr⟩ := hts hterm
    simp [stepExec, hg, h2, hout, herr]
  · simp [stepExec, hg, h2]

/-- On the runtime-error step the timer is cleared and the sinks end up
detached. -/
theorem stepExec_execError_cleanup (s : ExecState) (m : String)
    (hst : s.snippetStarted = true) (hse : s.execSettled = false)
    (hcs : closedIffTerm s) (hts : terminalSettled s) :
    (stepExec s (.execError m)).timerCleared = true ∧
    (stepExec s (.execError m)).timerActive = false ∧
    (stepExec s (.execError m)).stdoutAttached = false ∧
    (stepExec s (.execError m)).stderrAttached = false := by
  have hg : (s.snippetStarted && !s.execSettled) = true := by simp [hst, hse]
  by_cases h2 : s.streamClosed
  · have hterm : s.termEv.isSome := hcs.mp h2
    obtain ⟨_, hout, herr⟩ := hts hterm
    simp [stepExec, hg, h2, hout, herr]
  · simp [stepExec, hg, h2]

/-- On the timeout step the timer is consumed (fired, not re-armed) and the
sinks end up detached. -/
theorem stepExec_timerFire_cleanup (s : ExecState)
    (hact : s.timerActive = true)
    (hcs : closedIffTerm s) (hts : terminalSettled s) :
    (stepExec s .timerFire).timerFired = true ∧
    (stepExec s .timerFire).timerActive = false ∧
    (stepExec s .timerFire).stdoutAttached = false ∧
    (stepExec s .timerFire).stderrAttached = false := by
  by_cases h2 : s.streamClosed
  · have hterm : s.termEv.isSome := hcs.mp h2
    obtain ⟨_, hout, herr⟩ := hts hterm
    simp [stepExec, hact, h2, hout, herr]
  · simp [stepExec, hact, h2]

/-- On the cancellation step the sinks are detached and the interrupt flag
is written, but the timeout timer is left exactly as it was: the abort
handler does not clear it. -/
theorem stepExec_abortFire_cleanup (s : ExecState)
    (hsig : s.hasSignal = true) (hpre : s.preAborted = false)
    (hfired : s.abortFired = false) :
    (stepExec s .abortFire).stdoutAttached = false ∧
    (stepExec s .abortFire).stderrAttached = false ∧
    (stepExec s .abortFire).interruptVal = 2 ∧
    (stepExec s .abortFire).timerCleared = s.timerCleared ∧
    (stepExec s .abortFire).timerActive = s.timerActive := by
  have hg : (s.hasSignal && !s.preAborted && !s.abortFired) = true := by
    simp [hsig, hpre, hfired]
  simp only [stepExec, hg, if_true]
  cases hte : s.termEv <;> simp

/-- Claim C4 counterexample: an execution created with an already-aborted
cancellation token reaches its terminal event (the cancellation error), its
deferred task has run, and yet the timeout timer was never cleared and is
still pending — so cleanup does not clear the timer on every terminal
path. -/
theorem claim_C4_counterexample_timer_not_cleared :
    (runExec (initExec true true) [.deferredStep]).termEv =
      some (.errored abortReason) ∧
    (runExec (initExec true true) [.deferredStep]).deferredRun = true ∧
    (runExec (initExec true true) [.deferredStep]).timerCleared = false ∧
    (runExec (initExec true true) [.deferredStep]).timerActive = true := by
  decide

/-- Claim C4 as amended: on the normal-completion and runtime-error paths
the timeout timer is cleared and the output sinks end up detached; on the
timeout path the sinks end up detached and the timer is consumed by firing;
on the cancellation path the sinks are detached and the interrupt flag set,
but the timer is not cleared by the cancellation handler (it is cleared
only when the interrupted snippet later settles), and when cancellation
precedes the start of execution the timer is never cleared at all. -/
theorem claim_C4_amended_cleanup_per_path
    (hasSig pre : Bool) (evs1 evs2 evs3 evs4 : List ExecEv) (m : String)
    (h1a : (runExec (initExec hasSig pre) evs1).snippetStarted = true)
    (h1b : (runExec (initExec hasSig pre) evs1).execSettled = false)
    (h2a : (runExec (initExec hasSig pre) evs2).snippetStarted = true)
    (h2b : (runExec (initExec hasSig pre) evs2).execSettled = false)
    (h3a : (runExec (initExec hasSig pre) evs3).timerActive = true)
    (h4a : (runExec (initExec hasSig pre) evs4).hasSignal = true)
    (h4b : (runExec (initExec hasSig pre) evs4).preAborted = false)
    (h4c : (runExec (initExec hasSig pre) evs4).abortFired = false) :
    ((stepExec (runExec (initExec hasSig pre) evs1) .execDone).timerCleared
        = true ∧
      (stepExec (runExec (initExec hasSig pre) evs1) .execDone).stdoutAttached
        = false ∧
      (stepExec (runExec (initExec hasSig pre) evs1) .execDone).stderrAttached
        = false) ∧
    ((stepExec (runExec (initExec hasSig pre) evs2) (.execError m)).timerCleared
        = true ∧
      (stepExec (runExec (initExec hasSig pre) evs2)
        (.execError m)).stdoutAttached = false ∧
      (stepExec (runExec (initExec hasSig pre) evs2)
        (.execError m)).stderrAttached = false) ∧
    ((stepExec (runExec (initExec hasSig pre) evs3) .timerFire).timerFired
        = true ∧
      (stepExec (runExec (initExec hasSig pre) evs3) .timerFire).timerActive
        = false ∧
      (stepExec (runExec (initExec hasSig pre) evs3) .timerFire).stdoutAttached
        = false ∧
      (stepExec (runExec (initExec hasSig pre) evs3) .timerFire).stderrAttached
        = false) ∧
    ((stepExec (runExec (initExec hasSig pre) evs4) .abortFire).stdoutAttached
        = false ∧
      (stepExec (runExec (initExec hasSig pre) evs4) .abortFire).stderrAttached
        = false ∧
      (stepExec (runExec (initExec hasSig pre) evs4) .abortFire).interruptVal
        = 2 ∧
      (stepExec (runExec (initExec hasSig pre) evs4) .abortFire).timerCleared
        = (runExec (initExec hasSig pre) evs4).timerCleared) ∧
    (∀ post, (runExec (initExec true true) post).timerCleared = false) := by
  have hcs1 := runExec_closedIffTerm (initExec hasSig pre) evs1
    (initExec_closedIffTerm hasSig pre)
  have hts1 := runExec_terminalSettled (initExec hasSig pre) evs1
    (initExec_terminalSettled hasSig pre)
  have hcs2 := runExec_closedIffTerm (initExec hasSig pre) evs2
    (initExec_closedIffTerm hasSig pre)
  have hts2 := runExec_terminalSettled (initExec hasSig pre) evs2
    (initExec_terminalSettled hasSig pre)
  have hcs3 := runExec_closedIffTerm (initExec hasSig pre) evs3
    (initExec_closedIffTerm hasSig pre)
  have hts3 := runExec_terminalSettled (initExec hasSig pre) evs3
    (initExec_terminalSettled hasSig pre)
  obtain ⟨d1, _, d3, d4⟩ := stepExec_execDone_cleanup _ h1a h1b hcs1 hts1
  obtain ⟨e1, _, e3, e4⟩ := stepExec_execError_cleanup _ m h2a h2b hcs2 hts2
  obtain ⟨t1, t2, t3, t4⟩ := stepExec_timerFire_cleanup _ h3a hcs3 hts3
  obtain ⟨a1, a2, a3, a4, _⟩ := stepExec_abortFire_cleanup _ h4a h4b h4c
  refine ⟨⟨d1, d3, d4⟩, ⟨e1, e3, e4⟩, ⟨t1, t2, t3, t4⟩, ⟨a1, a2, a3, a4⟩, ?_⟩
  intro post
  obtain ⟨_, _, _, htc⟩ :=
    runExec_preAbortInv (initExec true true) post initExec_preAbortInv
  exact htc

/-- Witness for the amended claim C4: concrete completion, error, timeout
and cancellation steps from an execution with a live (not pre-aborted)
signal, plus the pre-aborted execution whose timer stays uncleared even
after its timer eventually fires. -/
theorem claim_C4_amended_cleanup_per_path_witness :
    (stepExec (runExec (initExec true false) [.deferredStep])
      .execDone).timerCleared = true ∧
    (stepExec (runExec (initExec true false) [.deferredStep, .outData "x"])
      (.execError "ZeroDivisionError")).stdoutAttached = false ∧
    (stepExec (runExec (initExec true false) [.deferredStep])
      .timerFire).timerFired = true ∧
    (stepExec (runExec (initExec true false) [.deferredStep])
      .abortFire).interruptVal = 2 ∧
    (stepExec (runExec (initExec true false) [.deferredStep])
      .abortFire).timerCleared = false ∧
    (runExec (initExec true true) [.deferredStep, .timerFire]).timerCleared
      = false := by
  obtain ⟨⟨w1, _, _⟩, ⟨_, w2, _⟩, ⟨w3, _, _, _⟩, ⟨_, _, w4, w5⟩, w6⟩ :=
    claim_C4_amended_cleanup_per_path true false
      [.deferredStep] [.deferredStep, .outData "x"]
      [.deferredStep] [.deferredStep] "ZeroDivisionError"
      (by decide) (by decide) (by decide) (by decide)
      (by decide) (by decide) (by decide) (by decide)
  exact ⟨w1, w2, w3, w4, by rw [w5]; decide, w6 [.deferredStep, .timerFire]⟩

end CodeRunner
